import Mathlib

/-!
Verification of the OpenOracle python SDK against its natural-language
specification.  Each Python function referenced by a claim is shallowly
embedded as an executable Lean definition; machine floats are modelled as
exact rationals and wall-clock time is passed explicitly as a parameter.
-/

set_option maxRecDepth 10000

namespace OpenOracle

/-! ## Enums from `schemas/oracle_schemas.py` -/

/-- `OracleProvider` enum (oracle_schemas.py lines 14-23). -/
inductive OracleProvider where
  | chainlink | pyth | band | uma | api3 | dia | tellor | supra
  deriving DecidableEq, Repr

/-- `DataCategory` enum (oracle_schemas.py lines 25-38). -/
inductive DataCategory where
  | price | sports | weather | election | economic | random
  | custom | events | stocks | forex | commodities | nft
  deriving DecidableEq, Repr

/-- `UpdateFrequency` enum (oracle_schemas.py lines 40-48). -/
inductive UpdateFrequency where
  | realtime | highFreq | mediumFreq | lowFreq | hourly | daily | onDemand
  deriving DecidableEq, Repr

/-! ## Contract address validators (`schemas/contract_json_schemas.py`)

`RouteConfig.validate_address` (lines 123-127) raises unless the string
starts with `0x` and has length 42.  `RouteResult.validate_address`
(lines 148-152) additionally lets the zero address through unconditionally.
The embeddings return `true` exactly when the Python validator accepts
(returns the value instead of raising). -/

/-- The Ethereum zero address literal used by `RouteResult.validate_address`. -/
def zeroAddress : String := "0x0000000000000000000000000000000000000000"

/-- Python `v.startswith('0x')`, on the underlying character list. -/
def startsWith0x (v : String) : Bool := "0x".data.isPrefixOf v.data

/-- Embedding of `RouteConfig.validate_address`: accepted iff
`v.startswith('0x') and len(v) == 42`. -/
def routeConfigValidateAddress (v : String) : Bool :=
  startsWith0x v && v.length == 42

/-- Embedding of `RouteResult.validate_address`: the zero address is accepted,
otherwise the same prefix/length check as `RouteConfig`. -/
def routeResultValidateAddress (v : String) : Bool :=
  v == zeroAddress || (startsWith0x v && v.length == 42)

/-- Hexadecimal digit test matching the character class `[0-9a-fA-F]`. -/
def isHexDigitChar (c : Char) : Bool :=
  c.isDigit || ('a' ≤ c && c ≤ 'f') || ('A' ≤ c && c ≤ 'F')

/-- The property the spec asserts of accepted addresses: literal `0x`
followed by exactly 40 hexadecimal characters (regex `^0x[0-9a-fA-F]{40}$`). -/
def isHexAddress (v : String) : Bool :=
  v.length == 42 && "0x".data.isPrefixOf v.data && (v.data.drop 2).all isHexDigitChar

/-! ## Aggregation over numeric provider values (`core/router.py` lines 186-208)

`OpenOracleRouter.get_aggregated_data`, numeric branch: sort the values,
take the median, flag a discrepancy when `(max-min)/max > 0.05` (for
`max > 0`), and set confidence `0.95` without a discrepancy and `0.8`
with one. -/

/-- Result fields of `AggregatedOracleData` that the numeric branch fills in. -/
structure AggResult where
  aggregatedValue : ℚ
  confidence : ℚ
  discrepancyDetected : Bool
  deriving DecidableEq, Repr

/-- Ascending insertion used to model Python `sorted(values)` (stable,
ascending; implemented structurally so the kernel can evaluate it). -/
def insertAsc (x : ℚ) : List ℚ → List ℚ
  | [] => [x]
  | h :: t => if x ≤ h then x :: h :: t else h :: insertAsc x t

/-- Python `sorted(values)`. -/
def sortAsc (l : List ℚ) : List ℚ := l.foldr insertAsc []

/-- Median of the already sorted value list, as computed at router.py
lines 188-192 (mean of the two middle elements for even length). -/
def medianOfSorted (values : List ℚ) : ℚ :=
  if values.length % 2 == 0 then
    ((values.getD (values.length / 2 - 1) 0) + (values.getD (values.length / 2) 0)) / 2
  else
    values.getD (values.length / 2) 0

/-- Embedding of the numeric aggregation branch of
`OpenOracleRouter.get_aggregated_data` (router.py lines 186-208), applied to
the numeric values of the collected data points.  Returns `none` when there
are no data points (router.py lines 183-184). -/
def aggregateNumeric (vals : List ℚ) : Option AggResult :=
  if vals.isEmpty then none
  else
    let values := sortAsc vals
    let median := medianOfSorted values
    let maxVal := values.foldl max (values.headD 0)
    let minVal := values.foldl min (values.headD 0)
    let discrepancy := if maxVal > 0 then decide ((maxVal - minVal) / maxVal > 1/20) else false
    some { aggregatedValue := median
           confidence := if discrepancy then 4/5 else 19/20
           discrepancyDetected := discrepancy }

/-! ## Retry utilities (`utils/retry.py`)

`calculate_delay` (lines 43-52) and `async_retry` (lines 60-110).  The
random jitter factor `0.5 + random.random() * 0.5` is passed in explicitly
as `rand ∈ [0,1)`; the attempt outcomes of the wrapped coroutine are passed
as a function from attempt number to outcome. -/

/-- `RetryConfig` (retry.py lines 23-40); `retriable_exceptions` is folded
into each outcome's `retriable` flag. -/
structure RetryConfig where
  maxAttempts : ℕ
  baseDelay : ℚ
  maxDelay : ℚ
  backoffFactor : ℚ
  jitter : Bool
  deriving Repr

/-- Embedding of `calculate_delay` (retry.py lines 43-52).  `rand` is the
value `random.random()` would produce for this call. -/
def calculateDelay (attempt : ℕ) (cfg : RetryConfig) (rand : ℚ) : ℚ :=
  let delay := min (cfg.baseDelay * cfg.backoffFactor ^ (attempt - 1)) cfg.maxDelay
  if cfg.jitter then delay * (1/2 + rand * (1/2)) else delay

/-- Outcome of one call of the wrapped function: a returned value or an
exception, which is either retriable (`should_retry` true) or not. -/
inductive AttemptOutcome (α : Type) where
  | ok (v : α)
  | err (retriable : Bool)

/-- Observable result of `async_retry`: a returned value, a re-raised
non-retriable exception, or a final `RetryError`. -/
inductive RetryResult (α : Type) where
  | success (v : α)
  | raised
  | exhausted
  deriving DecidableEq, Repr

/-- The retry loop of `async_retry` (retry.py lines 86-110), returning the
observable result together with the total time passed to `asyncio.sleep`.
`fuel` counts the attempts still allowed and starts at `max_attempts`, so
the `attempt == config.max_attempts` break makes the `fuel = 0` branch
unreachable except when `max_attempts = 0` (empty `range`). -/
def retryGo {α : Type} (cfg : RetryConfig) (outcomes : ℕ → AttemptOutcome α)
    (rands : ℕ → ℚ) : ℕ → ℕ → ℚ → RetryResult α × ℚ
  | 0, _, acc => (.exhausted, acc)
  | fuel + 1, attempt, acc =>
    match outcomes attempt with
    | .ok v => (.success v, acc)
    | .err retriable =>
      if !retriable then (.raised, acc)
      else if attempt == cfg.maxAttempts then (.exhausted, acc)
      else retryGo cfg outcomes rands fuel (attempt + 1)
        (acc + calculateDelay attempt cfg (rands attempt))

/-- Embedding of `async_retry` (retry.py lines 60-110): run the loop from
attempt 1 with no sleep accumulated. -/
def asyncRetry {α : Type} (cfg : RetryConfig) (outcomes : ℕ → AttemptOutcome α)
    (rands : ℕ → ℚ) : RetryResult α × ℚ :=
  retryGo cfg outcomes rands cfg.maxAttempts 1 0

/-- The no-jitter per-attempt delay `min(base·factor^(attempt-1), max_delay)`. -/
def delayNoJitter (cfg : RetryConfig) (attempt : ℕ) : ℚ :=
  min (cfg.baseDelay * cfg.backoffFactor ^ (attempt - 1)) cfg.maxDelay

/-! ## Circuit breaker (`utils/retry.py` lines 197-277)

State machine of `CircuitBreaker`; a call is one execution of
`_execute_sync`/`_execute_async` at wall-clock time `now`, with `succeeds`
telling whether the wrapped function would return normally. -/

/-- The three values of `CircuitBreaker.state` (`'closed'`, `'open'`,
`'half-open'`). -/
inductive BreakerState where
  | closed | opened | halfOpen
  deriving DecidableEq, Repr

/-- Fields of the `CircuitBreaker` object (retry.py lines 200-212). -/
structure CircuitBreaker where
  failureThreshold : ℕ
  recoveryTimeout : ℚ
  failureCount : ℕ
  lastFailureTime : Option ℚ
  state : BreakerState
  deriving DecidableEq, Repr

/-- `CircuitBreaker.__init__` (retry.py lines 200-212). -/
def initBreaker (failureThreshold : ℕ) (recoveryTimeout : ℚ) : CircuitBreaker :=
  { failureThreshold := failureThreshold
    recoveryTimeout := recoveryTimeout
    failureCount := 0
    lastFailureTime := none
    state := .closed }

/-- `CircuitBreaker._should_attempt_reset` (retry.py lines 259-264). -/
def shouldAttemptReset (b : CircuitBreaker) (now : ℚ) : Bool :=
  match b.lastFailureTime with
  | none => false
  | some t => decide (now - t ≥ b.recoveryTimeout)

/-- `CircuitBreaker._on_success` (retry.py lines 266-269). -/
def breakerOnSuccess (b : CircuitBreaker) : CircuitBreaker :=
  { b with failureCount := 0, state := .closed }

/-- `CircuitBreaker._on_failure` (retry.py lines 271-277). -/
def breakerOnFailure (b : CircuitBreaker) (now : ℚ) : CircuitBreaker :=
  let count := b.failureCount + 1
  { b with
    failureCount := count
    lastFailureTime := some now
    state := if count ≥ b.failureThreshold then .opened else b.state }

/-- Observable result of one guarded call: `blocked` is the immediate
`Exception("Circuit breaker is open")` raised without invoking the wrapped
function; `invoked s` means the wrapped function ran and succeeded iff `s`. -/
inductive BreakerCallResult where
  | blocked
  | invoked (success : Bool)
  deriving DecidableEq, Repr

/-- Embedding of `CircuitBreaker._execute_sync` / `_execute_async`
(retry.py lines 227-257): transition the open state first, fail fast if
still open, otherwise invoke and apply `_on_success` / `_on_failure`. -/
def breakerCall (b : CircuitBreaker) (now : ℚ) (succeeds : Bool) :
    BreakerCallResult × CircuitBreaker :=
  if b.state = .opened ∧ ¬ (shouldAttemptReset b now = true) then (.blocked, b)
  else
    let b1 := if b.state = .opened then { b with state := .halfOpen } else b
    if succeeds then (.invoked true, breakerOnSuccess b1)
    else (.invoked false, breakerOnFailure b1 now)

/-- Run a sequence of calls that all fail, at the given times. -/
def breakerFailSeq (b : CircuitBreaker) (ts : List ℚ) : CircuitBreaker :=
  ts.foldl (fun b t => (breakerCall b t false).2) b

/-! ## In-memory cache (`utils/cache.py` lines 47-159)

`MemoryCache` with wall-clock time passed explicitly.  Python's dict is
modelled as an association list with unique keys (dict assignment replaces
by key); `entry['expires_at'] and now > entry['expires_at']` keeps Python
truthiness, under which both `None` and `0` disable the expiry check. -/

/-- One value of the `self._cache` dict (cache.py lines 91-98). -/
structure CacheEntry (α : Type) where
  value : α
  createdAt : ℚ
  lastAccessed : ℚ
  expiresAt : Option ℚ
  hits : ℕ
  deriving Repr

/-- `MemoryCache` object state (cache.py lines 50-55). -/
structure MemoryCache (α : Type) where
  maxSize : ℕ
  defaultTtl : ℚ
  entries : List (String × CacheEntry α)
  accessOrder : List String
  deriving Repr

/-- An empty `MemoryCache(max_size, default_ttl)`. -/
def initCache (α : Type) (maxSize : ℕ) (defaultTtl : ℚ) : MemoryCache α :=
  { maxSize, defaultTtl, entries := [], accessOrder := [] }

/-- Lookup in the `self._cache` dict. -/
def lookupEntry {α : Type} (c : MemoryCache α) (k : String) : Option (CacheEntry α) :=
  (c.entries.find? (fun p => p.1 == k)).map Prod.snd

/-- The TTL test of `get`/`exists` (cache.py lines 65, 120) with Python
truthiness of `entry['expires_at']`. -/
def entryExpired {α : Type} (e : CacheEntry α) (now : ℚ) : Bool :=
  match e.expiresAt with
  | none => false
  | some x => x != 0 && decide (now > x)

/-- `MemoryCache._remove_key` (cache.py lines 126-133). -/
def cacheRemoveKey {α : Type} (c : MemoryCache α) (k : String) : MemoryCache α :=
  { c with
    entries := c.entries.filter (fun p => ¬ (p.1 == k))
    accessOrder := c.accessOrder.erase k }

/-- `MemoryCache._evict_lru` (cache.py lines 135-139). -/
def cacheEvictLru {α : Type} (c : MemoryCache α) : MemoryCache α :=
  match c.accessOrder with
  | [] => c
  | lru :: _ => cacheRemoveKey c lru

/-- Embedding of `MemoryCache.set` (cache.py lines 79-103).  `ttl = none`
is Python's `ttl=None`, falling back to `default_ttl` when that is truthy. -/
def cacheSet {α : Type} (c : MemoryCache α) (k : String) (v : α) (ttl : Option ℚ)
    (now : ℚ) : MemoryCache α :=
  let expiresAt : Option ℚ :=
    match ttl with
    | some t => some (now + t)
    | none => if c.defaultTtl != 0 then some (now + c.defaultTtl) else none
  let c :=
    if c.entries.length ≥ c.maxSize ∧ (lookupEntry c k).isNone then cacheEvictLru c else c
  let entry : CacheEntry α :=
    { value := v, createdAt := now, lastAccessed := now, expiresAt, hits := 0 }
  { c with
    entries := c.entries.filter (fun p => ¬ (p.1 == k)) ++ [(k, entry)]
    accessOrder := c.accessOrder.erase k ++ [k] }

/-- Embedding of `MemoryCache.get` (cache.py lines 57-77): returns the hit
value (or `none` on a miss) together with the updated cache state. -/
def cacheGet {α : Type} (c : MemoryCache α) (k : String) (now : ℚ) :
    Option α × MemoryCache α :=
  match lookupEntry c k with
  | none => (none, c)
  | some entry =>
    if entryExpired entry now then (none, cacheRemoveKey c k)
    else
      let entry' := { entry with hits := entry.hits + 1, lastAccessed := now }
      (some entry.value,
       { c with
         entries := c.entries.map (fun p => if p.1 == k then (k, entry') else p)
         accessOrder := c.accessOrder.erase k ++ [k] })

/-- Embedding of `MemoryCache.exists` (cache.py lines 114-124). -/
def cacheExists {α : Type} (c : MemoryCache α) (k : String) (now : ℚ) :
    Bool × MemoryCache α :=
  match lookupEntry c k with
  | none => (false, c)
  | some entry =>
    if entryExpired entry now then (false, cacheRemoveKey c k)
    else (true, c)

/-! ## Base oracle adapter (`adapters/base_adapter.py`)

`BaseOracleAdapter.query` (lines 105-155) together with
`_validate_request` (lines 157-163).  The subclass hook `_execute_query`
(run under `asyncio.wait_for`) is passed in as `exec`: a raised exception or
timeout is `Except.error msg`, a returned value is `Except.ok d` where
`d = none` models Python `None`.  Wall-clock latency and timestamps are not
modelled (no claim mentions them). -/

/-- `DataType` enum of the adapter layer (base_adapter.py lines 18-25). -/
inductive AdapterDataType where
  | price | weather | sports | custom | news | social
  deriving DecidableEq, Repr

/-- `OracleRequest` dataclass (base_adapter.py lines 34-42); `parameters`,
`format` and `metadata` are not read by `query`/`_validate_request`. -/
structure AdapterRequest where
  query : String
  dataType : AdapterDataType
  timeout : ℕ := 30
  deriving Repr

/-- The fields of the `OracleResponse` dataclass (base_adapter.py lines
44-54) that `query` determines. -/
structure AdapterResponse where
  data : Option String
  provider : String
  confidence : ℚ
  error : Option String
  deriving DecidableEq, Repr

/-- Embedding of `_validate_request` (base_adapter.py lines 157-163):
returns the message of the `ValueError` it raises, or `none` if valid.  The
second message drops the f-string interpolation of the data type. -/
def validateRequest (supported : List AdapterDataType) (req : AdapterRequest) :
    Option String :=
  if req.query == "" then some "Query cannot be empty"
  else if ¬ (supported.contains req.dataType) then some "Unsupported data type"
  else none

/-- Embedding of `BaseOracleAdapter.query` (base_adapter.py lines 105-155).
The `Except` on the result captures whether `query` itself raises: the
`except Exception` handler at lines 142-155 converts every exception from
the `try` body — validation errors included — into a returned
`OracleResponse`, so the embedding always produces `Except.ok`. -/
def adapterQuery (name : String) (supported : List AdapterDataType)
    (exec : Except String (Option String)) (req : AdapterRequest) :
    Except String AdapterResponse :=
  .ok <|
    match validateRequest supported req with
    | some msg =>
      { data := none, provider := name, confidence := 0, error := some msg }
    | none =>
      match exec with
      | .error msg =>
        { data := none, provider := name, confidence := 0, error := some msg }
      | .ok d =>
        { data := d, provider := name
          confidence := if d.isSome then 1 else 0
          error := none }

/-! ## String helpers used by the question analyzer

The questions handled by the SDK are ASCII, for which `Char.toLower` /
`Char.toUpper` agree with Python's `str.lower()` / `str.upper()`, the
substring operator `in` is list-infix containment and the regex classes
`\w`, `\s` and `\d` are the predicates below. -/

/-- Python `str.lower()`. -/
def lowerString (s : String) : String := String.mk (s.data.map Char.toLower)

/-- Python `str.upper()`. -/
def upperString (s : String) : String := String.mk (s.data.map Char.toUpper)

/-- Python `pat in hay` on strings: `pat` occurs as a contiguous substring
(the empty pattern always occurs). -/
def containsSub : List Char → List Char → Bool
  | [], pat => pat.isEmpty
  | hay@(_ :: t), pat => pat.isPrefixOf hay || containsSub t pat

/-- Regex word character `\w` (ASCII). -/
def isWordChar (c : Char) : Bool := c.isAlphanum || c == '_'

/-- Boundary test used for `\b`: position border against an optional
neighbouring character. -/
def boundaryOk (neighbour : Option Char) : Bool :=
  match neighbour with
  | none => true
  | some c => ¬ isWordChar c

/-- Whether `sym` occurs in `hay` delimited by word boundaries, the meaning
of `re.findall(r'\b(SYM)\b', hay) ≠ []` for a symbol made of word
characters. -/
def occursAsWordAux (sym : List Char) : Option Char → List Char → Bool
  | _, [] => false
  | prev, hay@(c :: t) =>
    (boundaryOk prev && sym.isPrefixOf hay
      && boundaryOk ((hay.drop sym.length).head?))
    || occursAsWordAux sym (some c) t

/-- Word-bounded occurrence of `sym` in `hay`. -/
def occursAsWord (sym : String) (hay : String) : Bool :=
  occursAsWordAux sym.data none hay.data

/-! ### A small matcher for the fixed regexes in `question_analyzer.py`

Each pattern used there is a sequence of the atoms below.  In all of those
patterns every greedy class (`\s+`, `(\w+)`, `([\d,]+)`) is followed by an
atom that cannot start with a character of that class, so deterministic
maximal munch is exact regex matching for them. -/

/-- Pattern atoms: literal text, `\s+`, `(\w+)`, `([\d,]+)`, `\$?`, and a
group of literal alternatives. -/
inductive ReAtom where
  | lit (s : String)
  | ws
  | word
  | digits
  | optDollar
  | alt (ss : List String)

/-- Match a sequence of atoms at the start of `hay` (re.match semantics for
the fixed patterns, maximal munch on the greedy classes). -/
def matchAtoms : List ReAtom → List Char → Bool
  | [], _ => true
  | .lit s :: rest, hay => s.data.isPrefixOf hay && matchAtoms rest (hay.drop s.length)
  | .ws :: rest, hay =>
    let h2 := hay.dropWhile Char.isWhitespace
    decide (h2.length < hay.length) && matchAtoms rest h2
  | .word :: rest, hay =>
    let h2 := hay.dropWhile isWordChar
    decide (h2.length < hay.length) && matchAtoms rest h2
  | .digits :: rest, hay =>
    let h2 := hay.dropWhile (fun c => c.isDigit || c == ',')
    decide (h2.length < hay.length) && matchAtoms rest h2
  | .optDollar :: rest, hay =>
    match hay with
    | '$' :: t => matchAtoms rest t
    | _ => matchAtoms rest hay
  | .alt ss :: rest, hay =>
    ss.any (fun s => s.data.isPrefixOf hay && matchAtoms rest (hay.drop s.length))

/-- `re.search`: the atom sequence matches at some position. -/
def reSearch (atoms : List ReAtom) : List Char → Bool
  | [] => matchAtoms atoms []
  | hay@(_ :: t) => matchAtoms atoms hay || reSearch atoms t

/-! ## Question analyzer (`ai/question_analyzer.py`) -/

/-- String value of each `DataCategory` member (`category.value`). -/
def categoryValue : DataCategory → String
  | .price => "price" | .sports => "sports" | .weather => "weather"
  | .election => "election" | .economic => "economic" | .random => "random"
  | .custom => "custom" | .events => "events" | .stocks => "stocks"
  | .forex => "forex" | .commodities => "commodities" | .nft => "nft"

/-- String value of each `OracleProvider` member (`provider.value`). -/
def providerValue : OracleProvider → String
  | .chainlink => "chainlink" | .pyth => "pyth" | .band => "band"
  | .uma => "uma" | .api3 => "api3" | .dia => "dia"
  | .tellor => "tellor" | .supra => "supra"

/-- `QuestionAnalyzer.CATEGORY_KEYWORDS` (question_analyzer.py lines
17-42), in dict insertion order. -/
def categoryKeywordList : List (DataCategory × List String) :=
  [ (.price,
     ["price", "cost", "value", "worth", "usd", "dollar", "euro", "btc",
      "eth", "bitcoin", "ethereum", "crypto", "stock", "share", "market cap",
      "above", "below", "exceed", "reach", "trade", "close", "open", "hit"])
  , (.sports,
     ["game", "match", "score", "win", "lose", "champion", "playoff",
      "tournament", "team", "player", "goal", "point", "nfl", "nba", "mlb",
      "super bowl", "world series", "finals", "mvp", "draft", "trade deadline",
      "season", "touchdown", "field goal", "home run", "strikeout", "penalty"])
  , (.weather,
     ["weather", "temperature", "rain", "snow", "wind", "hurricane",
      "storm", "celsius", "fahrenheit", "forecast", "climate", "drought"])
  , (.election,
     ["election", "vote", "poll", "candidate", "president", "senate",
      "congress", "governor", "ballot", "primary", "electoral", "democrat",
      "republican", "independent", "caucus", "debate", "campaign"])
  , (.economic,
     ["gdp", "inflation", "cpi", "unemployment", "interest rate", "fed",
      "economy", "recession", "growth", "jobs report", "consumer", "fomc"]) ]

/-- Accumulator pass for Python `str.split()` over the character list. -/
def splitWordsAux : List Char → List Char → List String
  | [], acc => if acc.isEmpty then [] else [String.mk acc.reverse]
  | c :: t, acc =>
    if c.isWhitespace then
      if acc.isEmpty then splitWordsAux t []
      else String.mk acc.reverse :: splitWordsAux t []
    else splitWordsAux t (c :: acc)

/-- Python `keyword.split()`: split on whitespace runs, dropping empties. -/
def splitWords (s : String) : List String := splitWordsAux s.data []

/-- The per-keyword weight of `analyze_question` (question_analyzer.py
lines 80-81): `len(keyword.split()) * 2` for multi-word phrases, else 1. -/
def keywordWeight (kw : String) : ℕ :=
  let n := (splitWords kw).length
  if n > 1 then n * 2 else 1

/-- The keyword-scoring loop of `analyze_question` (question_analyzer.py
lines 77-82) for one category's keyword list over the lowercased question. -/
def categoryKeywordScore (keywords : List String) (questionLower : List Char) : ℕ :=
  keywords.foldl
    (fun score kw =>
      if containsSub questionLower kw.data then score + keywordWeight kw else score)
    0

/-- The keyword list of one category (`CATEGORY_KEYWORDS[c]`, empty for
categories outside the dict). -/
def keywordsFor (c : DataCategory) : List String :=
  ((categoryKeywordList.find? (fun p => p.1 = c)).map Prod.snd).getD []

/-- `MARKET_PATTERNS['binary_outcome']` (question_analyzer.py lines 46-53). -/
def binaryOutcomeAtoms : List (List ReAtom) :=
  [ [.lit "will", .ws, .word, .ws, .lit "win"]
  , [.lit "will", .ws, .word, .ws, .lit "be", .ws, .lit "elected"]
  , [.lit "will", .ws, .word, .ws, .lit "happen"]
  , [.lit "will", .ws, .lit "there", .ws, .lit "be"]
  , [.lit "will", .ws, .word, .ws, .lit "exceed"]
  , [.lit "will", .ws, .word, .ws, .lit "reach"] ]

/-- `MARKET_PATTERNS['price_threshold']` (question_analyzer.py lines
54-58).  The `date_based` group is also searched by the loop at lines
88-97 but its branch has no effect on the scores, so it is not modelled. -/
def priceThresholdAtoms : List (List ReAtom) :=
  [ [.alt ["above", "below", "over", "under"], .ws, .optDollar, .digits]
  , [.lit "exceed", .ws, .optDollar, .digits]
  , [.lit "hit", .ws, .optDollar, .digits] ]

/-- Insert-or-add into the insertion-ordered score dict
(`category_scores[c] = category_scores.get(c, 0) + delta`). -/
def upsertAdd (l : List (DataCategory × ℕ)) (c : DataCategory) (delta : ℕ) :
    List (DataCategory × ℕ) :=
  if l.any (fun p => p.1 = c) then
    l.map (fun p => if p.1 = c then (c, p.2 + delta) else p)
  else l ++ [(c, delta)]

/-- Python `max(category_scores, key=category_scores.get)` together with
its score: the first entry (in dict insertion order) with maximal score. -/
def maxEntry (l : List (DataCategory × ℕ)) : Option (DataCategory × ℕ) :=
  l.foldl
    (fun acc p =>
      match acc with
      | none => some p
      | some q => if p.2 > q.2 then some p else some q)
    none

/-- Embedding of `QuestionAnalyzer.analyze_question` (question_analyzer.py
lines 67-109): keyword scores per category, pattern boosting
(`binary_outcome` adds 3 to the current best category, `price_threshold`
adds 5 to PRICE), then the best category with confidence
`min(score/10, 1)` — or `(CUSTOM, 0.3)` when no category scored. -/
def analyzeQuestion (question : String) : DataCategory × ℚ :=
  let ql := (lowerString question).data
  let scores0 := categoryKeywordList.foldl
    (fun acc p =>
      let s := categoryKeywordScore p.2 ql
      if s > 0 then acc ++ [(p.1, s)] else acc)
    []
  let scores1 := binaryOutcomeAtoms.foldl
    (fun acc pat =>
      if reSearch pat ql then
        match maxEntry acc with
        | some mq => upsertAdd acc mq.1 3
        | none => acc
      else acc)
    scores0
  let scores2 := priceThresholdAtoms.foldl
    (fun acc pat => if reSearch pat ql then upsertAdd acc .price 5 else acc)
    scores1
  match maxEntry scores2 with
  | none => (.custom, 3/10)
  | some best => (best.1, min ((best.2 : ℚ) / 10) 1)

/-! ### Asset extraction (`QuestionAnalyzer._extract_assets`, lines 136-160) -/

/-- The crypto ticker alternatives of the `crypto_pattern` regex. -/
def cryptoSymbols : List String :=
  ["BTC", "ETH", "SOL", "AVAX", "MATIC", "BNB", "USDC", "USDT", "ADA", "DOT",
   "LINK", "UNI"]

/-- The `stock_companies` name-to-ticker table (lines 146-149). -/
def stockCompanies : List (String × String) :=
  [("tesla", "TSLA"), ("apple", "AAPL"), ("microsoft", "MSFT"),
   ("google", "GOOGL"), ("amazon", "AMZN"), ("netflix", "NFLX"),
   ("meta", "META"), ("nvidia", "NVDA")]

/-- One attempted match of the ticker pattern
`\b([A-Z]{1,5})\b(?=\s+(?:stock|share|price))` at the start of `hay`:
a word-bounded run of 1-5 uppercase letters followed by whitespace and one
of the three literals. -/
def tickerAt (prev : Option Char) (hay : List Char) : Option String :=
  if ¬ (boundaryOk prev) then none
  else
    let run := hay.takeWhile Char.isUpper
    if run.length == 0 || run.length > 5 then none
    else
      let rest := hay.drop run.length
      if ¬ (boundaryOk rest.head?) then none
      else
        let rest2 := rest.dropWhile Char.isWhitespace
        if rest2.length < rest.length
            && (["stock", "share", "price"].any (fun s => s.data.isPrefixOf rest2))
        then some (String.mk run) else none

/-- All ticker-pattern matches over the question (scan order). -/
def tickerScan : Option Char → List Char → List String
  | _, [] => []
  | prev, hay@(c :: t) =>
    match tickerAt prev hay with
    | some tick => tick :: tickerScan (some c) t
    | none => tickerScan (some c) t

/-- Embedding of `_extract_assets` (lines 136-160): crypto symbols found
word-bounded in the uppercased question, then company-name tickers, then
the direct ticker pattern on the original question, deduplicated.  Python's
final `list(set(assets))` has unspecified order; first-occurrence order is
used here and no downstream decision depends on the order. -/
def extractAssets (question : String) : List String :=
  let crypto := cryptoSymbols.filter (fun s => occursAsWord s (upperString question))
  let stocks := (stockCompanies.filter
    (fun p => containsSub (lowerString question).data p.1.data)).map Prod.snd
  let tickers := tickerScan none question.data
  (crypto ++ stocks ++ tickers).eraseDups

/-- The fields of `extract_data_requirements` (lines 111-134) that the
routing engine reads (`assets`, `original_question`).  The remaining fields
(`timeframe`, `threshold`, `comparison_type`, `market_type`) are computed
but only stored into the opaque `requirements` blob of `oracle_config`,
which no routing decision or claim inspects. -/
structure DataRequirements where
  assets : List String
  originalQuestion : String
  deriving DecidableEq, Repr

/-- Embedding of `extract_data_requirements` restricted to the fields read
by the routing engine. -/
def extractDataRequirements (question : String) : DataRequirements :=
  { assets := extractAssets question, originalQuestion := question }

/-! ## Routing engine (`ai/routing_engine.py`) -/

/-- One oracle's entry in `RoutingEngine.ORACLE_CAPABILITIES`
(routing_engine.py lines 22-101).  Only the keys of the `specialties`
sub-dict are kept: the engine tests `category.value in specialties` and
never reads the values. -/
structure OracleCaps where
  categories : List DataCategory
  updateFreq : UpdateFrequency
  chains : List String
  latencyMs : ℕ
  reliability : ℚ
  costUsd : ℚ
  specialtyKeys : List String
  deriving Repr

/-- `ORACLE_CAPABILITIES` in dict insertion order. -/
def oracleCapabilitiesList : List (OracleProvider × OracleCaps) :=
  [ (.chainlink,
     { categories := [.price, .sports, .weather, .random, .stocks, .forex]
       updateFreq := .highFreq
       chains := ["ethereum", "polygon", "arbitrum", "optimism", "avalanche", "bnb"]
       latencyMs := 500
       reliability := 99/100
       costUsd := 1/2
       specialtyKeys := ["sports", "weather", "stocks"] })
  , (.pyth,
     { categories := [.price, .stocks, .forex, .commodities]
       updateFreq := .realtime
       chains := ["solana", "ethereum", "arbitrum", "optimism", "base"]
       latencyMs := 100
       reliability := 98/100
       costUsd := 1/10
       specialtyKeys := ["crypto", "stocks", "forex"] })
  , (.band,
     { categories := [.price, .stocks, .forex, .commodities, .custom]
       updateFreq := .mediumFreq
       chains := ["cosmos", "ethereum", "binance", "polygon"]
       latencyMs := 1000
       reliability := 95/100
       costUsd := 3/10
       specialtyKeys := ["custom", "cross_chain"] })
  , (.uma,
     { categories := [.custom, .events, .economic, .election]
       updateFreq := .onDemand
       chains := ["ethereum", "polygon", "arbitrum"]
       latencyMs := 7200000
       reliability := 97/100
       costUsd := 100
       specialtyKeys := ["elections", "events", "economic"] })
  , (.api3,
     { categories := [.price, .weather, .sports, .custom, .nft]
       updateFreq := .mediumFreq
       chains := ["ethereum", "polygon", "avalanche", "bnb", "arbitrum"]
       latencyMs := 800
       reliability := 96/100
       costUsd := 1/4
       specialtyKeys := ["weather", "nft"] }) ]

/-- Lookup `ORACLE_CAPABILITIES[provider]`.  The engine only ever indexes
providers it took from the matrix itself, so the fallback (a Python
`KeyError`) is never reached. -/
def capsOf (p : OracleProvider) : OracleCaps :=
  (((oracleCapabilitiesList.find? (fun q => q.1 = p)).map Prod.snd).getD
    { categories := [], updateFreq := .onDemand, chains := [], latencyMs := 0
      reliability := 0, costUsd := 0, specialtyKeys := [] })

/-- Python truthiness of an optional list argument. -/
def optListTruthy {β : Type} (o : Option (List β)) : Bool :=
  match o with
  | none => false
  | some l => ¬ l.isEmpty

/-- Python truthiness of `max_latency : Optional[int]`. -/
def optNatTruthy (o : Option ℕ) : Bool :=
  match o with
  | none => false
  | some n => n != 0

/-- Python truthiness of `max_cost : Optional[Decimal]`. -/
def optRatTruthy (o : Option ℚ) : Bool :=
  match o with
  | none => false
  | some q => q != 0

/-- The preference score of `_sort_oracles_by_preference`
(routing_engine.py lines 225-237): reliability, +0.1 for a category
specialty, plus `0.05 / (latency_ms/1000 + 1)`. -/
def preferenceScore (category : DataCategory) (p : OracleProvider) : ℚ :=
  let caps := capsOf p
  let base := caps.reliability
    + (if caps.specialtyKeys.contains (categoryValue category) then 1/10 else 0)
  base + (1 / ((caps.latencyMs : ℚ) / 1000 + 1)) * (1/20)

/-- Stable descending insertion for `sorted(..., key=..., reverse=True)`:
`x` is placed before the first element with strictly smaller score, so
equal scores keep their original order. -/
def insertByScoreDesc (score : OracleProvider → ℚ) (x : OracleProvider) :
    List OracleProvider → List OracleProvider
  | [] => [x]
  | h :: t =>
    if score h < score x then x :: h :: t else h :: insertByScoreDesc score x t

/-- `_sort_oracles_by_preference` (routing_engine.py lines 220-239). -/
def sortOraclesByPreference (l : List OracleProvider) (category : DataCategory) :
    List OracleProvider :=
  l.foldl (fun acc p => insertByScoreDesc (preferenceScore category) p acc) []

/-- Embedding of `_find_suitable_oracles` (routing_engine.py lines
180-218): filter the capability matrix by preferred providers, category,
chain overlap, latency and cost (each optional constraint guarded by
Python truthiness), then sort by preference. -/
def findSuitableOracles (category : DataCategory)
    (requiredChains : Option (List String)) (maxLatency : Option ℕ)
    (maxCost : Option ℚ) (preferred : Option (List OracleProvider)) :
    List OracleProvider :=
  let suitable := oracleCapabilitiesList.foldl
    (fun acc pc =>
      let p := pc.1
      let caps := pc.2
      if optListTruthy preferred ∧ ¬ ((preferred.getD []).contains p) then acc
      else if ¬ (caps.categories.contains category) then acc
      else if optListTruthy requiredChains
          ∧ ¬ ((requiredChains.getD []).any
                (fun ch => caps.chains.contains (lowerString ch))) then acc
      else if optNatTruthy maxLatency ∧ caps.latencyMs > maxLatency.getD 0 then acc
      else if optRatTruthy maxCost ∧ caps.costUsd > maxCost.getD 0 then acc
      else acc ++ [p])
    []
  sortOraclesByPreference suitable category

/-- The crypto assets list of the PRICE branch of `_select_best_oracle`
and `_calculate_confidence_boost` (routing_engine.py lines 257, 452). -/
def cryptoPriceAssets : List String := ["BTC", "ETH", "SOL", "AVAX"]

/-- The traditional stock assets of `_calculate_confidence_boost`
(routing_engine.py line 458). -/
def stockBoostAssets : List String := ["AAPL", "TSLA", "MSFT", "GOOGL"]

/-- Python `', '.join(assets)`. -/
def joinComma : List String → String
  | [] => ""
  | [x] => x
  | x :: t => x ++ ", " ++ joinComma t

/-- The keyword-driven selection cascade of `_select_best_oracle`
(routing_engine.py lines 255-357); `none` means control falls through to
the default selection. -/
def selectRules (suitable : List OracleProvider) (category : DataCategory)
    (question : String) (assets : List String) : Option (OracleProvider × String) :=
  let q := question.data
  -- crypto price markets (lines 256-270)
  (if category = .price ∧ ¬ assets.isEmpty
      ∧ assets.any (fun a => cryptoPriceAssets.contains a) then
    if suitable.contains .pyth then
      some (.pyth, "Pyth Network selected for " ++ joinComma assets
        ++ " - provides sub-second price updates from major exchanges with 100ms latency")
    else if suitable.contains .chainlink then
      some (.chainlink, "Chainlink selected for " ++ joinComma assets
        ++ " - industry-leading price aggregation with 99% uptime")
    else none
  else none).orElse fun _ =>
  -- sports betting (lines 273-285)
  (if category = .sports then
    if suitable.contains .chainlink then
      some (.chainlink, "Chainlink selected for sports data - exclusive partnerships with TheRundown and SportsdataIO for official game results")
    else if suitable.contains .api3 then
      some (.api3, "API3 selected for sports data - first-party oracle connections to major sports APIs")
    else none
  else none).orElse fun _ =>
  -- political/election markets (lines 288-294)
  (if category = .election ∧ suitable.contains .uma then
    some (.uma, "UMA Optimistic Oracle selected for election results - human verification ensures accuracy with dispute resolution mechanism")
  else none).orElse fun _ =>
  -- economic data (lines 297-311)
  (if category = .economic then
    if ["fed", "federal reserve", "powell", "interest rate", "fomc"].any
        (fun kw => containsSub q kw.data) then
      if suitable.contains .uma then
        some (.uma, "UMA selected for Fed decisions - optimistic oracle with human verification of official FOMC statements")
      else none
    else if suitable.contains .chainlink then
      some (.chainlink, "Chainlink selected for economic data - automated feeds from official government sources")
    else none
  else none).orElse fun _ =>
  -- weather events (lines 314-326)
  (if category = .weather then
    if suitable.contains .api3 then
      some (.api3, "API3 selected for weather data - direct first-party connections to NOAA and AccuWeather")
    else if suitable.contains .chainlink then
      some (.chainlink, "Chainlink selected for weather data - verified AccuWeather integration with high reliability")
    else none
  else none).orElse fun _ =>
  -- custom/complex events (lines 329-348)
  (if category = .custom ∨ category = .events then
    (if ["announce", "launch", "ipo", "earnings", "merger"].any
        (fun kw => containsSub q kw.data) ∧ suitable.contains .uma then
      some (.uma, "UMA selected for corporate events - optimistic oracle ensures accurate verification of official announcements")
    else none).orElse fun _ =>
    (if ["tweet", "post", "follower", "ban", "suspend"].any
        (fun kw => containsSub q kw.data) ∧ suitable.contains .band then
      some (.band, "Band Protocol selected for social media data - flexible API integration for real-time social metrics")
    else none)
  else none).orElse fun _ =>
  -- NFT markets (lines 351-357)
  (if category = .nft ∧ suitable.contains .api3 then
    some (.api3, "API3 selected for NFT floor prices - direct OpenSea and Blur marketplace connections")
  else none)

/-- Render a reliability ratio the way the f-string `:.0%` does for the
values in the capability matrix (all are integer percentages). -/
def percentString (q : ℚ) : String := toString (q * 100).num ++ "%"

/-- Render the cost `Decimal` of each provider as Python's `str` does. -/
def costString : OracleProvider → String
  | .chainlink => "0.50" | .pyth => "0.10" | .band => "0.30"
  | .uma => "100.00" | .api3 => "0.25"
  | _ => ""

/-- Embedding of `_select_best_oracle` (routing_engine.py lines 241-370):
the rule cascade, falling back to the first suitable oracle with the
formatted default reasoning.  Returns `(none, msg)` for an empty candidate
list exactly as the Python function returns `(None, msg)`. -/
def selectBestOracle (suitable : List OracleProvider) (category : DataCategory)
    (reqs : DataRequirements) : Option OracleProvider × String :=
  match suitable with
  | [] => (none, "No suitable oracles available")
  | best :: _ =>
    match selectRules suitable category (lowerString reqs.originalQuestion) reqs.assets with
    | some pr => (some pr.1, pr.2)
    | none =>
      let caps := capsOf best
      (some best,
        providerValue best ++ " selected as optimal choice - "
          ++ percentString caps.reliability ++ " reliability, "
          ++ toString caps.latencyMs ++ "ms latency, $"
          ++ costString best ++ " estimated cost")

/-- The provider-specific configuration dict built by
`_build_oracle_config` (routing_engine.py lines 372-428), restricted to the
varying parts: the static per-provider constants (heartbeat, liveness
period, aggregation names, …) are fixed literals no claim reads. -/
structure OracleConfigModel where
  provider : OracleProvider
  category : DataCategory
  requirements : DataRequirements
  feeds : List String
  deriving DecidableEq, Repr

/-- Embedding of `_build_oracle_config`: the `feeds` field carries the
asset-derived list of each branch (`pairs`, `feed_ids`, `data_sources`,
`data_feeds`; UMA's branch has none). -/
def buildOracleConfig (provider : OracleProvider) (category : DataCategory)
    (reqs : DataRequirements) : OracleConfigModel :=
  { provider, category, requirements := reqs
    feeds :=
      match provider with
      | .chainlink => reqs.assets.map (fun a => a ++ "/USD")
      | .pyth => reqs.assets
      | .band => reqs.assets
      | .api3 => reqs.assets
      | _ => [] }

/-- Embedding of `_calculate_confidence_boost` (routing_engine.py lines
430-466). -/
def calculateConfidenceBoost (oracle : OracleProvider) (category : DataCategory)
    (reqs : DataRequirements) : ℚ :=
  let caps := capsOf oracle
  let specialtyBoost :=
    if caps.specialtyKeys.contains (categoryValue category) then 3/20 else 0
  let assetBoost :=
    if category = .price ∧ ¬ reqs.assets.isEmpty then
      if oracle = .pyth then
        if reqs.assets.any (fun a => cryptoPriceAssets.contains a) then 1/10 else 0
      else if oracle = .chainlink then
        if reqs.assets.any (fun a => stockBoostAssets.contains a) then 1/10 else 0
      else 0
    else 0
  let reliabilityBoost := if caps.reliability ≥ 49/50 then 1/20 else 0
  specialtyBoost + assetBoost + reliabilityBoost

/-- `_get_resolution_method` (routing_engine.py lines 468-477). -/
def getResolutionMethod : OracleProvider → String
  | .chainlink => "aggregated"
  | .pyth => "direct_pull"
  | .band => "cross_chain_aggregated"
  | .uma => "optimistic_human_verified"
  | .api3 => "first_party_signed"
  | _ => "automated"

/-! ## Routing request/response models (`schemas/oracle_schemas.py`)

Constructing a pydantic model runs its declared validation; for
`OracleRoutingResponse` (lines 251-281) that is the `ge=0, le=1` bound on
`confidence_score`, the `Literal["direct", "aggregated", "optimistic"]`
constraint on `resolution_method`, and the `validate_selection` field
validator.  A constructor call that fails validation raises, which the
embedding returns as `Except.error`. -/

/-- `OracleRoutingRequest` (oracle_schemas.py lines 228-235). -/
structure RoutingRequest where
  question : String
  categoryHint : Option DataCategory := none
  requiredChains : Option (List String) := none
  maxLatencyMs : Option ℕ := none
  maxCostUsd : Option ℚ := none
  preferredProviders : Option (List OracleProvider) := none
  deriving Repr

/-- Field record of `OracleRoutingResponse` (oracle_schemas.py lines
251-274). -/
structure RoutingResponse where
  canResolve : Bool
  selectedOracle : Option OracleProvider := none
  reasoning : String
  oracleConfig : Option OracleConfigModel := none
  alternatives : Option (List OracleProvider) := none
  dataType : Option DataCategory := none
  requiredFeeds : Option (List String) := none
  estimatedCostUsd : Option ℚ := none
  estimatedLatencyMs : Option ℕ := none
  confidenceScore : ℚ
  resolutionMethod : Option String := none
  updateFrequency : Option UpdateFrequency := none
  deriving DecidableEq, Repr

/-- The `Literal` values admitted for `resolution_method`
(oracle_schemas.py line 273). -/
def allowedResolutionMethods : List String := ["direct", "aggregated", "optimistic"]

/-- Pydantic validation performed by the `OracleRoutingResponse`
constructor: `confidence_score ∈ [0,1]`, `resolution_method` in the
`Literal` set when present, and `validate_selection` (lines 276-281). -/
def validateRoutingResponse (r : RoutingResponse) : Except String RoutingResponse :=
  if ¬ (0 ≤ r.confidenceScore ∧ r.confidenceScore ≤ 1) then
    .error "confidence_score out of range"
  else if r.canResolve ∧ r.selectedOracle.isNone then
    .error "Oracle must be selected if question is resolvable"
  else
    match r.resolutionMethod with
    | some m =>
      if allowedResolutionMethods.contains m then .ok r
      else .error ("unexpected value for resolution_method: " ++ m)
    | none => .ok r

/-- The `try` body of `RoutingEngine.route_question` (routing_engine.py
lines 111-170): analyze, apply the category hint, filter and sort the
candidates, select, build config and metrics, and construct the response
model (whose validation can raise). -/
def routeQuestionInner (req : RoutingRequest) : Except String RoutingResponse :=
  let analyzed := analyzeQuestion req.question
  let reqs := extractDataRequirements req.question
  let categoryConf :=
    match req.categoryHint with
    | some h => (h, max analyzed.2 (4/5))
    | none => analyzed
  let category := categoryConf.1
  let baseConfidence := categoryConf.2
  let suitable := findSuitableOracles category req.requiredChains req.maxLatencyMs
    req.maxCostUsd req.preferredProviders
  if suitable.isEmpty then
    validateRoutingResponse
      { canResolve := false
        reasoning := "No oracle supports " ++ categoryValue category
          ++ " data with your requirements"
        confidenceScore := baseConfidence
        dataType := some category }
  else
    match selectBestOracle suitable category reqs with
    | (none, _) =>
      -- unreachable: `suitable` is nonempty; a `None` here would crash
      -- `_build_oracle_config`, i.e. raise into the handler.
      .error "selected_oracle is None"
    | (some sel, reasoning) =>
      let cfg := buildOracleConfig sel category reqs
      let caps := capsOf sel
      let boost := calculateConfidenceBoost sel category reqs
      let finalConfidence := min (baseConfidence + boost) 1
      validateRoutingResponse
        { canResolve := true
          selectedOracle := some sel
          reasoning := reasoning
          oracleConfig := some cfg
          alternatives :=
            if suitable.length > 1 then some ((suitable.drop 1).take 2) else none
          dataType := some category
          requiredFeeds := some reqs.assets
          estimatedCostUsd := some caps.costUsd
          estimatedLatencyMs := some caps.latencyMs
          confidenceScore := finalConfidence
          resolutionMethod := some (getResolutionMethod sel)
          updateFrequency := some caps.updateFreq }

/-- The response built by the `except` handler of `route_question`
(routing_engine.py lines 172-178), for a caught exception message. -/
def routingErrorResponse (msg : String) : RoutingResponse :=
  { canResolve := false
    reasoning := "Routing error: " ++ msg
    confidenceScore := 0 }

/-- Embedding of `RoutingEngine.route_question` (routing_engine.py lines
107-178): run the `try` body; any exception is caught and converted into
the error response, whose own constructor validation is the only way the
method could still raise (hence the outer `Except`). -/
def routeQuestion (req : RoutingRequest) : Except String RoutingResponse :=
  match routeQuestionInner req with
  | .ok r => .ok r
  | .error e => validateRoutingResponse (routingErrorResponse e)

/-! ## AI enhancement merge (`ai/enhancement_service.py` lines 212-254) -/

/-- `AIEnhancementResponse` (oracle_schemas.py lines 243-249); its schema
bounds `confidence_boost` to `[0, 0.5]` with default `0.2`, and `oracle`,
`data_type`, `reasoning` are required fields. -/
structure AIEnhancement where
  oracle : OracleProvider
  dataType : DataCategory
  feeds : List String := []
  reasoning : String
  confidenceBoost : ℚ := 1/5
  deriving Repr

/-- Embedding of `EnhancementService._apply_enhancements`
(enhancement_service.py lines 212-254).  Enum members are always truthy in
Python, so `ai_enhancement.oracle or basic_response.selected_oracle` is
always the AI's oracle (and likewise for `data_type`); `ai.feeds or
basic.required_feeds` falls back on an empty list.  The merged
`OracleRoutingResponse` constructor validates as usual. -/
def applyEnhancements (basic : RoutingResponse) (ai : AIEnhancement) :
    Except String RoutingResponse :=
  let enhancedReasoning :=
    if ¬ (basic.reasoning == "") ∧ ¬ (ai.reasoning == basic.reasoning) then
      ai.reasoning ++ " (Enhanced from: " ++ basic.reasoning ++ ")"
    else ai.reasoning
  let enhancedConfidence := min (basic.confidenceScore + ai.confidenceBoost) 1
  let oracleConfig :=
    if ¬ (basic.selectedOracle == some ai.oracle) then
      basic.oracleConfig.map (fun c => { c with provider := ai.oracle })
    else basic.oracleConfig
  validateRoutingResponse
    { canResolve := true
      selectedOracle := some ai.oracle
      reasoning := enhancedReasoning
      oracleConfig := oracleConfig
      alternatives := basic.alternatives
      dataType := some ai.dataType
      requiredFeeds := if ai.feeds.isEmpty then basic.requiredFeeds else some ai.feeds
      estimatedCostUsd := basic.estimatedCostUsd
      estimatedLatencyMs := basic.estimatedLatencyMs
      confidenceScore := enhancedConfidence
      resolutionMethod := basic.resolutionMethod
      updateFrequency := basic.updateFrequency }

/-- Python `s.startswith(p)` for arbitrary prefix `p`. -/
def strBeginsWith (p s : String) : Bool := p.data.isPrefixOf s.data

/-- The routing request of the spec's first worked example: the BTC price
question with `category_hint = PRICE` and no other constraints. -/
def btcRequest : RoutingRequest :=
  { question := "Will BTC exceed $100,000 by the end of 2025?"
    categoryHint := some DataCategory.price }

/-! ## Helper lemmas -/

theorem foldl_max_init_le (l : List ℚ) : ∀ a : ℚ, a ≤ l.foldl max a := by
  induction l with
  | nil => intro a; simp
  | cons h t ih =>
    intro a
    simpa using le_trans (le_max_left a h) (ih (max a h))

theorem foldl_max_le {M : ℚ} (l : List ℚ) (hl : ∀ x ∈ l, x ≤ M) :
    ∀ a : ℚ, a ≤ M → l.foldl max a ≤ M := by
  induction l with
  | nil => intro a ha; simpa using ha
  | cons h t ih =>
    intro a ha
    have hh : h ≤ M := hl h (List.mem_cons_self h t)
    have ht : ∀ x ∈ t, x ≤ M := fun x hx => hl x (List.mem_cons_of_mem h hx)
    simpa using ih ht (max a h) (max_le ha hh)

theorem le_foldl_max_of_mem {x : ℚ} (l : List ℚ) (hx : x ∈ l) :
    ∀ a : ℚ, x ≤ l.foldl max a := by
  induction l with
  | nil => cases hx
  | cons h t ih =>
    intro a
    rcases List.mem_cons.1 hx with rfl | hx'
    · simpa using le_trans (le_max_right a x) (foldl_max_init_le t (max a x))
    · simpa using ih hx' (max a h)

theorem le_foldl_min_init (l : List ℚ) : ∀ a : ℚ, l.foldl min a ≤ a := by
  induction l with
  | nil => intro a; simp
  | cons h t ih =>
    intro a
    simpa using le_trans (ih (min a h)) (min_le_left a h)

theorem le_foldl_min {m : ℚ} (l : List ℚ) (hl : ∀ x ∈ l, m ≤ x) :
    ∀ a : ℚ, m ≤ a → m ≤ l.foldl min a := by
  induction l with
  | nil => intro a ha; simpa using ha
  | cons h t ih =>
    intro a ha
    have hh : m ≤ h := hl h (List.mem_cons_self h t)
    have ht : ∀ x ∈ t, m ≤ x := fun x hx => hl x (List.mem_cons_of_mem h hx)
    simpa using ih ht (min a h) (le_min ha hh)

theorem foldl_min_le_of_mem {x : ℚ} (l : List ℚ) (hx : x ∈ l) :
    ∀ a : ℚ, l.foldl min a ≤ x := by
  induction l with
  | nil => cases hx
  | cons h t ih =>
    intro a
    rcases List.mem_cons.1 hx with rfl | hx'
    · simpa using le_trans (le_foldl_min_init t (min a x)) (min_le_right a x)
    · simpa using ih hx' (min a h)

theorem mem_insertAsc {x y : ℚ} (l : List ℚ) :
    x ∈ insertAsc y l ↔ x = y ∨ x ∈ l := by
  induction l with
  | nil => simp [insertAsc]
  | cons h t ih =>
    rw [insertAsc]
    split
    · simp
    · simp only [List.mem_cons, ih]
      tauto

theorem mem_sortAsc {x : ℚ} (l : List ℚ) : x ∈ sortAsc l ↔ x ∈ l := by
  induction l with
  | nil => simp [sortAsc]
  | cons h t ih =>
    show x ∈ insertAsc h (sortAsc t) ↔ _
    rw [mem_insertAsc, ih]
    simp

theorem containsSub_of_prefix {p l : List Char} (h : p <+: l) :
    containsSub l p = true := by
  cases l with
  | nil =>
    obtain rfl : p = [] := List.prefix_nil.mp h
    rfl
  | cons c t =>
    have hp : p.isPrefixOf (c :: t) = true := List.isPrefixOf_iff_prefix.2 h
    simp [containsSub, hp]

theorem containsSub_of_infix {p l : List Char} (h : p <:+: l) :
    containsSub l p = true := by
  obtain ⟨s, t, rfl⟩ := h
  induction s with
  | nil => exact containsSub_of_prefix (by simp)
  | cons c s ih =>
    simp only [List.cons_append, containsSub, Bool.or_eq_true]
    exact Or.inr (by simpa using ih)

theorem validateRoutingResponse_error_response (e : String) :
    validateRoutingResponse (routingErrorResponse e) = .ok (routingErrorResponse e) := by
  simp [validateRoutingResponse, routingErrorResponse]

/-! ## Claims -/

/-- Claim C2, counterexample to the stated bound: aggregating the ETH
prices 3000 and 3400 does set `discrepancy_detected` but produces
confidence `0.8`, not a value `≤ 0.7` as the claim asserts. -/
theorem C2_eth_confidence_counterexample :
    aggregateNumeric [3000, 3400]
      = some { aggregatedValue := 3200, confidence := 4/5, discrepancyDetected := true }
    ∧ ¬ ((4 : ℚ)/5 ≤ 7/10) := by
  constructor
  · norm_num [aggregateNumeric, sortAsc, insertAsc, medianOfSorted]
  · norm_num

/-- Claim C2 (amended): for any aggregation over at least two numeric
values with maximum `M > 0` and minimum `m`, `discrepancy_detected` holds
iff `(M - m)/M > 0.05`, and a detected discrepancy lowers the confidence
from `0.95` to `0.8` — a reduction of exactly `0.15` (hence at least
`0.15`), not to a value `≤ 0.7`. -/
theorem C2_discrepancy_iff_and_reduction (vals : List ℚ) (M m : ℚ) (r : AggResult)
    (hlen : 2 ≤ vals.length)
    (hM : M ∈ vals) (hMub : ∀ x ∈ vals, x ≤ M)
    (hm : m ∈ vals) (hmlb : ∀ x ∈ vals, m ≤ x)
    (hpos : 0 < M)
    (hagg : aggregateNumeric vals = some r) :
    (r.discrepancyDetected = true ↔ (M - m) / M > 1/20)
    ∧ (r.discrepancyDetected = true → r.confidence = 19/20 - 3/20)
    ∧ (r.discrepancyDetected = false → r.confidence = 19/20) := by
  have hne : ¬ vals.isEmpty := by
    cases vals with
    | nil => simp at hlen
    | cons a t => simp
  unfold aggregateNumeric at hagg
  rw [if_neg hne] at hagg
  dsimp only at hagg
  generalize hS : sortAsc vals = S at hagg
  have hmem : ∀ x : ℚ, x ∈ S ↔ x ∈ vals := by
    intro x
    rw [← hS]
    exact mem_sortAsc vals
  have hSne : S ≠ [] := by
    intro hnil
    have : M ∈ S := (hmem M).2 hM
    rw [hnil] at this
    cases this
  have hhead : S.headD 0 ∈ S := by
    cases hS2 : S with
    | nil => exact absurd hS2 hSne
    | cons a t => simp [hS2]
  have hmaxeq : S.foldl max (S.headD 0) = M := by
    apply le_antisymm
    · exact foldl_max_le S (fun x hx => hMub x ((hmem x).1 hx))
        (S.headD 0) (hMub _ ((hmem _).1 hhead))
    · exact le_foldl_max_of_mem S ((hmem M).2 hM) (S.headD 0)
  have hmineq : S.foldl min (S.headD 0) = m := by
    apply le_antisymm
    · exact foldl_min_le_of_mem S ((hmem m).2 hm) (S.headD 0)
    · exact le_foldl_min S (fun x hx => hmlb x ((hmem x).1 hx))
        (S.headD 0) (hmlb _ ((hmem _).1 hhead))
  rw [hmaxeq, hmineq, if_pos hpos] at hagg
  obtain rfl := (Option.some_inj.1 hagg).symm
  refine ⟨by simp, ?_, ?_⟩
  · intro h
    have hp : (M - m) / M > 1/20 := of_decide_eq_true h
    norm_num [hp]
  · intro h
    have hp : ¬ ((M - m) / M > 1/20) := of_decide_eq_false h
    norm_num [hp]

/-- Claim C3, counterexample: an empty query does not raise out of
`BaseOracleAdapter.query`; the `ValueError` from `_validate_request` is
caught by the handler and returned as an error response with
`confidence = 0`. -/
theorem C3_empty_query_returns_response :
    adapterQuery "chainlink" [AdapterDataType.price] (Except.ok (some "d"))
        { query := "", dataType := .price }
      = Except.ok
          { data := none, provider := "chainlink", confidence := 0
          , error := some "Query cannot be empty" } := by
  rfl

/-- Claim C3 (amended): `query` never raises — validation failures (empty
query or unsupported data type) and provider-level execution failures are
all translated into a returned response whose `error` field is set and
whose confidence is 0. -/
theorem C3_all_failures_returned (name : String) (supported : List AdapterDataType)
    (exec : Except String (Option String)) (req : AdapterRequest) :
    (req.query = "" →
      adapterQuery name supported exec req
        = Except.ok { data := none, provider := name, confidence := 0
                    , error := some "Query cannot be empty" })
    ∧ (¬ req.query = "" → req.dataType ∉ supported →
      adapterQuery name supported exec req
        = Except.ok { data := none, provider := name, confidence := 0
                    , error := some "Unsupported data type" })
    ∧ (∀ msg, validateRequest supported req = none → exec = Except.error msg →
      adapterQuery name supported exec req
        = Except.ok { data := none, provider := name, confidence := 0
                    , error := some msg }) := by
  refine ⟨?_, ?_, ?_⟩
  · intro hq
    simp [adapterQuery, validateRequest, hq]
  · intro hq hsupp
    simp [adapterQuery, validateRequest, hq, hsupp]
  · intro msg hval hexec
    simp [adapterQuery, hval, hexec]

/-- Claim C4, counterexample: `0x` followed by forty `z` characters is
accepted by both address validators although it is neither the zero
address nor a hexadecimal address. -/
theorem C4_non_hex_address_accepted :
    routeConfigValidateAddress ("0x" ++ String.mk (List.replicate 40 'z')) = true
    ∧ routeResultValidateAddress ("0x" ++ String.mk (List.replicate 40 'z')) = true
    ∧ isHexAddress ("0x" ++ String.mk (List.replicate 40 'z')) = false
    ∧ ("0x" ++ String.mk (List.replicate 40 'z')) ≠ zeroAddress := by
  refine ⟨by decide, by decide, by decide, by decide⟩

/-- Claim C4 (amended): the validators accept exactly the strings that
start with `0x` and have total length 42 (`RouteResult` additionally
admits the zero address, which already has that shape); hexadecimality of
the 40 tail characters is not checked, though every regex-valid address is
accepted. -/
theorem C4_accepted_iff_prefix_and_length (v : String) :
    (routeConfigValidateAddress v = true ↔ ("0x".data <+: v.data ∧ v.length = 42))
    ∧ (routeResultValidateAddress v = true
        ↔ (v = zeroAddress ∨ ("0x".data <+: v.data ∧ v.length = 42)))
    ∧ (isHexAddress v = true → routeConfigValidateAddress v = true) := by
  refine ⟨?_, ?_, ?_⟩
  · simp [routeConfigValidateAddress, startsWith0x, List.isPrefixOf_iff_prefix]
  · simp [routeResultValidateAddress, routeConfigValidateAddress, startsWith0x,
      List.isPrefixOf_iff_prefix]
  · intro hhex
    rw [isHexAddress] at hhex
    simp only [Bool.and_eq_true] at hhex
    simp [routeConfigValidateAddress, startsWith0x, hhex.1.1, hhex.1.2]

theorem retryGo_allfail {α : Type} (cfg : RetryConfig) (outcomes : ℕ → AttemptOutcome α)
    (rands : ℕ → ℚ) (hout : ∀ k, outcomes k = AttemptOutcome.err true) :
    ∀ (fuel attempt : ℕ) (acc : ℚ), attempt + fuel = cfg.maxAttempts + 1 →
      retryGo cfg outcomes rands fuel attempt acc
        = (RetryResult.exhausted,
           acc + ∑ i ∈ Finset.range (fuel - 1),
             calculateDelay (attempt + i) cfg (rands (attempt + i))) := by
  intro fuel
  induction fuel with
  | zero =>
    intro attempt acc h
    simp [retryGo]
  | succ n ih =>
    intro attempt acc h
    rw [retryGo, hout attempt]
    simp only [Bool.not_true, Bool.false_eq_true, if_false]
    cases hb : (attempt == cfg.maxAttempts) with
    | true =>
      have ha : attempt = cfg.maxAttempts := by simpa using hb
      have hn : n = 0 := by omega
      subst hn
      simp
    | false =>
      have ha : attempt ≠ cfg.maxAttempts := by simpa using hb
      have hn : n ≠ 0 := by omega
      obtain ⟨m, rfl⟩ := Nat.exists_eq_succ_of_ne_zero hn
      simp only [Bool.false_eq_true, if_false]
      rw [ih (attempt + 1) (acc + calculateDelay attempt cfg (rands attempt)) (by omega)]
      simp only [Prod.mk.injEq, Nat.succ_sub_one, true_and]
      rw [Finset.sum_range_succ'
        (fun i => calculateDelay (attempt + i) cfg (rands (attempt + i))) m]
      have harg : ∀ i : ℕ, attempt + 1 + i = attempt + (i + 1) := by omega
      rw [Finset.sum_congr rfl (fun i _ => by rw [harg i])]
      simp only [Nat.add_zero]
      ring

/-- Claim C5, counterexample: with `max_attempts = 3`, `base_delay = 1`,
`backoff_factor = 2`, no jitter and no cap, the total sleep over a fully
failing retry sequence is `1 + 2 = 3` seconds — sleeping happens only after
the first `n - 1` attempts — whereas the claimed formula
`b·(f^n − 1)/(f − 1)` gives `7`. -/
theorem C5_total_sleep_counterexample :
    (asyncRetry
        { maxAttempts := 3, baseDelay := 1, maxDelay := 60, backoffFactor := 2
        , jitter := false }
        (fun _ => AttemptOutcome.err (α := Unit) true) (fun _ => 0)).2 = 3
    ∧ (1 : ℚ) * (2 ^ (3 : ℕ) - 1) / (2 - 1) = 7
    ∧ (3 : ℚ) ≠ 7 := by
  refine ⟨by with_unfolding_all rfl, by norm_num, by norm_num⟩

/-- Claim C5 (amended): with jitter disabled, every attempt failing with a
retriable error, `backoff_factor ≠ 1`, and no per-attempt delay reaching
`max_delay`, the run raises `RetryError` and the total time slept is
`b·(f^(n−1) − 1)/(f − 1)` — the geometric sum over the `n − 1` sleeps
actually performed, not over `n`. -/
theorem C5_total_sleep_geometric {α : Type} (cfg : RetryConfig)
    (outcomes : ℕ → AttemptOutcome α) (rands : ℕ → ℚ)
    (hj : cfg.jitter = false)
    (hout : ∀ k, outcomes k = AttemptOutcome.err true)
    (hf : cfg.backoffFactor ≠ 1)
    (hcap : ∀ k ∈ Finset.Icc 1 (cfg.maxAttempts - 1),
      cfg.baseDelay * cfg.backoffFactor ^ (k - 1) ≤ cfg.maxDelay) :
    (asyncRetry cfg outcomes rands).1 = RetryResult.exhausted
    ∧ (asyncRetry cfg outcomes rands).2
        = cfg.baseDelay * (cfg.backoffFactor ^ (cfg.maxAttempts - 1) - 1)
            / (cfg.backoffFactor - 1) := by
  have h := retryGo_allfail cfg outcomes rands hout cfg.maxAttempts 1 0 (by omega)
  rw [asyncRetry, h]
  refine ⟨rfl, ?_⟩
  have hterm : ∀ i ∈ Finset.range (cfg.maxAttempts - 1),
      calculateDelay (1 + i) cfg (rands (1 + i))
        = cfg.baseDelay * cfg.backoffFactor ^ i := by
    intro i hi
    have hmem : i + 1 ∈ Finset.Icc 1 (cfg.maxAttempts - 1) := by
      simp only [Finset.mem_range] at hi
      simp only [Finset.mem_Icc]
      omega
    have hle := hcap (i + 1) hmem
    simp only [Nat.add_sub_cancel] at hle
    simp only [calculateDelay, hj, Bool.false_eq_true, if_false]
    have : 1 + i - 1 = i := by omega
    rw [this]
    exact min_eq_left hle
  rw [Finset.sum_congr rfl hterm, ← Finset.mul_sum,
    geom_sum_eq hf (cfg.maxAttempts - 1), zero_add, mul_div_assoc]

/-- Witness for C5: a concrete run with `max_attempts = 4`,
`base_delay = 1/2`, `factor = 3`, `max_delay = 10` sleeps
`1/2 + 3/2 + 9/2 = 13/2 = (1/2)·(3^3 − 1)/(3 − 1)` seconds. -/
theorem C5_total_sleep_geometric_witness :
    (asyncRetry
        { maxAttempts := 4, baseDelay := 1/2, maxDelay := 10, backoffFactor := 3
        , jitter := false }
        (fun _ => AttemptOutcome.err (α := Unit) true) (fun _ => 0)).1
      = RetryResult.exhausted
    ∧ (asyncRetry
        { maxAttempts := 4, baseDelay := 1/2, maxDelay := 10, backoffFactor := 3
        , jitter := false }
        (fun _ => AttemptOutcome.err (α := Unit) true) (fun _ => 0)).2
      = (1/2 : ℚ) * ((3 : ℚ) ^ ((4 : ℕ) - 1) - 1) / (3 - 1) :=
  C5_total_sleep_geometric
    { maxAttempts := 4, baseDelay := 1/2, maxDelay := 10, backoffFactor := 3
    , jitter := false }
    (fun _ => AttemptOutcome.err true) (fun _ => 0) rfl (fun _ => rfl)
    (by norm_num)
    (by
      intro k hk
      fin_cases hk <;> norm_num)

/-- Claim C6, counterexample: the two-word phrase `market cap` carries
weight `len(split())·2 = 4`, not twice the single-word weight `1`; a
question consisting of exactly that phrase scores 4 for PRICE. -/
theorem C6_multiword_weight_counterexample :
    keywordWeight "market cap" = 4
    ∧ keywordWeight "price" = 1
    ∧ categoryKeywordScore (keywordsFor .price) "market cap".data = 4
    ∧ ¬ (keywordWeight "market cap" = 2 * keywordWeight "price") := by
  refine ⟨by decide, by decide, by decide, by decide⟩

/-- Claim C6 (amended): a matched keyword contributes exactly its weight to
the category score; in the shipped keyword sets every single-word keyword
weighs 1 and every multi-word phrase weighs `2 × (its word count)`, which
is 4 for all of them (they all have two words) — four times a single-word
match, not twice. -/
theorem C6_keyword_weight_and_contribution (c : DataCategory) (kw : String)
    (hkw : kw ∈ keywordsFor c) :
    (∀ (kws : List String) (q : List Char),
      categoryKeywordScore (kws ++ [kw]) q
        = categoryKeywordScore kws q
          + (if containsSub q kw.data = true then keywordWeight kw else 0))
    ∧ (((splitWords kw).length ≤ 1 → keywordWeight kw = 1)
       ∧ (1 < (splitWords kw).length → keywordWeight kw = 4)) := by
  constructor
  · intro kws q
    rw [categoryKeywordScore, categoryKeywordScore, List.foldl_append]
    simp only [List.foldl_cons, List.foldl_nil]
    split <;> simp
  · revert hkw
    revert kw
    cases c <;> decide

/-- Witness for C6: instantiated at the PRICE keyword `market cap`. -/
theorem C6_keyword_weight_witness :
    "market cap" ∈ keywordsFor DataCategory.price
    ∧ (1 < (splitWords "market cap").length → keywordWeight "market cap" = 4) :=
  ⟨by decide,
   (C6_keyword_weight_and_contribution DataCategory.price "market cap" (by decide)).2.2⟩

theorem breakerCall_closed_fail (b : CircuitBreaker) (t : ℚ) (hb : b.state = .closed) :
    breakerCall b t false
      = (.invoked false,
         { b with
           failureCount := b.failureCount + 1
           lastFailureTime := some t
           state := if b.failureCount + 1 ≥ b.failureThreshold then .opened
                    else .closed }) := by
  rw [breakerCall]
  rw [if_neg (by simp [hb])]
  simp [hb, breakerOnFailure]

theorem breakerFailSeq_closed (ts : List ℚ) :
    ∀ b : CircuitBreaker, b.state = .closed →
      b.failureCount + ts.length < b.failureThreshold →
      (breakerFailSeq b ts).state = .closed
      ∧ (breakerFailSeq b ts).failureCount = b.failureCount + ts.length
      ∧ (breakerFailSeq b ts).failureThreshold = b.failureThreshold
      ∧ (breakerFailSeq b ts).recoveryTimeout = b.recoveryTimeout := by
  induction ts with
  | nil =>
    intro b hb hlt
    simp [breakerFailSeq, hb]
  | cons t ts ih =>
    intro b hb hlt
    have hnotop : ¬ (b.failureCount + 1 ≥ b.failureThreshold) := by
      simp only [List.length_cons] at hlt
      omega
    have hstep : (breakerCall b t false).2
        = { b with
            failureCount := b.failureCount + 1
            lastFailureTime := some t
            state := .closed } := by
      rw [breakerCall_closed_fail b t hb]
      simp [if_neg hnotop]
    have hrew : breakerFailSeq b (t :: ts)
        = breakerFailSeq ((breakerCall b t false).2) ts := by
      simp [breakerFailSeq]
    rw [hrew, hstep]
    have hrec := ih
      { b with
        failureCount := b.failureCount + 1
        lastFailureTime := some t
        state := .closed }
      rfl
      (by simp only [List.length_cons] at hlt ⊢; omega)
    rcases hrec with ⟨h1, h2, h3, h4⟩
    refine ⟨h1, ?_, h3, h4⟩
    rw [h2]
    simp only [List.length_cons]
    omega

/-- Claim C8: (i) starting closed, `k ≥ 1` consecutive failures open the
breaker with the failure counter at `k` and the last failure time recorded;
(ii) while open, any call strictly before `recovery_timeout` seconds after
the last failure is blocked without invoking the wrapped function and
leaves the breaker unchanged; (iii) the first call at or after the timeout
transitions to half-open, invokes the function, and on success the breaker
is closed with the counter reset. -/
theorem C8_circuit_breaker_lifecycle :
    (∀ (k : ℕ) (r : ℚ) (ts : List ℚ), 1 ≤ k → ts.length = k →
      (breakerFailSeq (initBreaker k r) ts).state = .opened
      ∧ (breakerFailSeq (initBreaker k r) ts).failureCount = k
      ∧ (breakerFailSeq (initBreaker k r) ts).recoveryTimeout = r
      ∧ (breakerFailSeq (initBreaker k r) ts).lastFailureTime = some (ts.getLastD 0))
    ∧ (∀ (b : CircuitBreaker) (now t : ℚ) (s : Bool),
        b.state = .opened → b.lastFailureTime = some t →
        now - t < b.recoveryTimeout →
        breakerCall b now s = (.blocked, b))
    ∧ (∀ (b : CircuitBreaker) (now t : ℚ),
        b.state = .opened → b.lastFailureTime = some t →
        b.recoveryTimeout ≤ now - t →
        breakerCall b now true
          = (.invoked true, { b with failureCount := 0, state := .closed })) := by
  refine ⟨?_, ?_, ?_⟩
  · intro k r ts hk hlen
    have hne : ts ≠ [] := by
      intro h
      rw [h] at hlen
      simp at hlen
      omega
    have hdec : ts.dropLast ++ [ts.getLast hne] = ts := List.dropLast_append_getLast hne
    have hlen' : ts.dropLast.length = k - 1 := by
      rw [List.length_dropLast, hlen]
    have hmid := breakerFailSeq_closed ts.dropLast (initBreaker k r) rfl
      (by simp [initBreaker, hlen']; omega)
    rcases hmid with ⟨h1, h2, h3, h4⟩
    have hsplit : breakerFailSeq (initBreaker k r) ts
        = (breakerCall (breakerFailSeq (initBreaker k r) ts.dropLast)
            (ts.getLast hne) false).2 := by
      conv_lhs => rw [← hdec]
      simp [breakerFailSeq, List.foldl_append]
    have hcount : (breakerFailSeq (initBreaker k r) ts.dropLast).failureCount + 1 = k := by
      rw [h2]
      simp [initBreaker, hlen']
      omega
    have hfin := breakerCall_closed_fail (breakerFailSeq (initBreaker k r) ts.dropLast)
      (ts.getLast hne) h1
    rw [hsplit, hfin]
    have hth : (breakerFailSeq (initBreaker k r) ts.dropLast).failureThreshold = k := by
      rw [h3]
      simp [initBreaker]
    have hopen : (breakerFailSeq (initBreaker k r) ts.dropLast).failureCount + 1
        ≥ (breakerFailSeq (initBreaker k r) ts.dropLast).failureThreshold := by
      rw [hcount, hth]
    have hlast : ts.getLastD 0 = ts.getLast hne := by
      conv_lhs => rw [← hdec]
      rw [List.getLastD_concat]
    refine ⟨by simp [if_pos hopen], by simp [hcount], ?_, ?_⟩
    · rw [h4]
      simp [initBreaker]
    · show some (ts.getLast hne) = some (ts.getLastD 0)
      rw [hlast]
  · intro b now t s hb hlft hlt
    have hres : shouldAttemptReset b now = false := by
      simp [shouldAttemptReset, hlft]
      linarith
    rw [breakerCall, if_pos ⟨hb, by simp [hres]⟩]
  · intro b now t hb hlft hge
    have hres : shouldAttemptReset b now = true := by
      simp [shouldAttemptReset, hlft]
      linarith
    rw [breakerCall, if_neg (by simp [hres])]
    rw [if_pos hb]
    simp [breakerOnSuccess]

/-- Witness for C8: threshold 2 and timeout 60; failures at times 10 and
20 open the breaker, a call at time 50 is blocked, a successful call at
time 80 closes it again with the counter reset. -/
theorem C8_circuit_breaker_witness :
    ((breakerFailSeq (initBreaker 2 60) [10, 20]).state = .opened
      ∧ (breakerFailSeq (initBreaker 2 60) [10, 20]).failureCount = 2
      ∧ (breakerFailSeq (initBreaker 2 60) [10, 20]).recoveryTimeout = 60
      ∧ (breakerFailSeq (initBreaker 2 60) [10, 20]).lastFailureTime
          = some ([10, 20].getLastD 0))
    ∧ breakerCall ⟨2, 60, 2, some 20, .opened⟩ 50 true
        = (.blocked, ⟨2, 60, 2, some 20, .opened⟩)
    ∧ breakerCall ⟨2, 60, 2, some 20, .opened⟩ 80 true
        = (.invoked true, ⟨2, 60, 0, some 20, .closed⟩) :=
  ⟨C8_circuit_breaker_lifecycle.1 2 60 [10, 20] (by norm_num) rfl,
   C8_circuit_breaker_lifecycle.2.1 ⟨2, 60, 2, some 20, .opened⟩ 50 20 true rfl rfl
     (by norm_num),
   C8_circuit_breaker_lifecycle.2.2 ⟨2, 60, 2, some 20, .opened⟩ 80 20 rfl rfl
     (by norm_num)⟩

theorem find?_filter_append {α : Type} (l : List (String × CacheEntry α)) (k : String)
    (e : CacheEntry α) :
    ((l.filter (fun p => ¬ (p.1 == k)) ++ [(k, e)]).find? (fun p => p.1 == k))
      = some (k, e) := by
  rw [List.find?_append]
  have hnone : (l.filter (fun p => ¬ (p.1 == k))).find? (fun p => p.1 == k) = none := by
    rw [List.find?_eq_none]
    intro x hx
    have h2 := (List.mem_filter.1 hx).2
    simp at h2 ⊢
    exact h2
  rw [hnone]
  simp

theorem lookupEntry_cacheSet_self {α : Type} (c : MemoryCache α) (k : String) (v : α)
    (ttl : Option ℚ) (now : ℚ) :
    lookupEntry (cacheSet c k v ttl now) k
      = some
          { value := v
            createdAt := now
            lastAccessed := now
            expiresAt :=
              match ttl with
              | some t => some (now + t)
              | none => if c.defaultTtl != 0 then some (now + c.defaultTtl) else none
            hits := 0 } := by
  rw [cacheSet.eq_def, lookupEntry]
  dsimp only
  rw [find?_filter_append]
  rfl

/-- Claim C9: an entry written with TTL `t` at (positive) wall-clock time
`T` is a miss for both `get` and `exists` at any time `T + Δ` with
`Δ > t ≥ 0`; and `get` never returns the value of an entry whose
(positive) expiry time has passed. -/
theorem C9_cache_ttl_expiry :
    (∀ (α : Type) (c : MemoryCache α) (k : String) (v : α) (t T Δ : ℚ),
      0 < T → 0 ≤ t → t < Δ →
      (cacheGet (cacheSet c k v (some t) T) k (T + Δ)).1 = none
      ∧ (cacheExists (cacheSet c k v (some t) T) k (T + Δ)).1 = false)
    ∧ (∀ (α : Type) (c : MemoryCache α) (k : String) (now : ℚ) (v : α),
      (∀ e x, lookupEntry c k = some e → e.expiresAt = some x → 0 < x) →
      (cacheGet c k now).1 = some v →
      ∃ e, lookupEntry c k = some e ∧ e.value = v
        ∧ ∀ x, e.expiresAt = some x → now ≤ x) := by
  constructor
  · intro α c k v t T Δ hT ht hΔ
    have hlook := lookupEntry_cacheSet_self c k v (some t) T
    have hx0 : (T + t) ≠ 0 := by positivity
    have hgt : T + Δ > T + t := by linarith
    have hexp : entryExpired
        ({ value := v
           createdAt := T
           lastAccessed := T
           expiresAt := some (T + t)
           hits := 0 } : CacheEntry α) (T + Δ) = true := by
      simp [entryExpired, hx0, hgt]
    constructor
    · rw [cacheGet, hlook]
      simp [hexp]
    · rw [cacheExists, hlook]
      simp [hexp]
  · intro α c k now v hpos hget
    rw [cacheGet] at hget
    cases hl : lookupEntry c k with
    | none =>
      rw [hl] at hget
      simp at hget
    | some e =>
      rw [hl] at hget
      by_cases hexp : entryExpired e now = true
      · simp [hexp] at hget
      · simp [hexp] at hget
        refine ⟨e, rfl, hget, ?_⟩
        intro x hx
        have h0 := hpos e x hl hx
        rw [entryExpired, hx] at hexp
        simp at hexp
        exact hexp (ne_of_gt h0)

/-- Witness for C9: a key written at time 10 with TTL 5 misses at time 16
for both reads, and a concrete live entry read before expiry satisfies the
no-expired-reads property. -/
theorem C9_cache_ttl_expiry_witness :
    ((cacheGet (cacheSet (initCache String 1000 300) "k" "v" (some 5) 10) "k" (10 + 6)).1
        = none
      ∧ (cacheExists (cacheSet (initCache String 1000 300) "k" "v" (some 5) 10) "k"
          (10 + 6)).1 = false)
    ∧ (∃ e,
        lookupEntry
          ({ maxSize := 1000, defaultTtl := 300
             entries :=
              [("k", { value := "v", createdAt := 0, lastAccessed := 0
                       expiresAt := some 20, hits := 0 })]
             accessOrder := ["k"] } : MemoryCache String) "k" = some e
        ∧ e.value = "v" ∧ ∀ x, e.expiresAt = some x → (15 : ℚ) ≤ x) := by
  constructor
  · exact C9_cache_ttl_expiry.1 String (initCache String 1000 300) "k" "v" 5 10 6
      (by norm_num) (by norm_num) (by norm_num)
  · refine C9_cache_ttl_expiry.2 String _ "k" 15 "v" ?_ ?_
    · intro e x h1 h2
      have hl : lookupEntry
          ({ maxSize := 1000, defaultTtl := 300
             entries :=
              [("k", { value := "v", createdAt := 0, lastAccessed := 0
                       expiresAt := some 20, hits := 0 })]
             accessOrder := ["k"] } : MemoryCache String) "k"
          = some { value := "v", createdAt := 0, lastAccessed := 0
                   expiresAt := some 20, hits := 0 } := by
        rfl
      rw [hl] at h1
      cases h1
      simp at h2
      subst h2
      norm_num
    · with_unfolding_all rfl

theorem validateRoutingResponse_ok (r : RoutingResponse)
    (h0 : 0 ≤ r.confidenceScore) (h1 : r.confidenceScore ≤ 1)
    (hsel : r.canResolve = true → r.selectedOracle.isSome)
    (hres : ∀ m, r.resolutionMethod = some m → m ∈ allowedResolutionMethods) :
    validateRoutingResponse r = .ok r := by
  have hA : ¬ ¬ (0 ≤ r.confidenceScore ∧ r.confidenceScore ≤ 1) :=
    not_not_intro ⟨h0, h1⟩
  have hB : ¬ (r.canResolve = true ∧ r.selectedOracle.isNone = true) := by
    rintro ⟨hcr, hn⟩
    have hs := hsel hcr
    rw [Option.isNone_iff_eq_none] at hn
    rw [hn] at hs
    simp at hs
  rw [validateRoutingResponse, if_neg hA, if_neg hB]
  cases hm : r.resolutionMethod with
  | none => rfl
  | some m =>
    simp [hres m hm]

/-- Claim C7, counterexample: the merge of `_apply_enhancements` adopts the
LLM's suggested oracle unconditionally — here UMA, which is in neither the
basic selection (PYTH) nor the alternatives (CHAINLINK) — whereas the claim
says the basic selection should be kept in that case. -/
theorem C7_llm_oracle_outside_candidates :
    ∃ merged,
      applyEnhancements
          { canResolve := true, selectedOracle := some .pyth
            reasoning := "basic reasoning"
            alternatives := some [.chainlink], confidenceScore := 11/20 }
          { oracle := .uma, dataType := .events, reasoning := "llm reasoning"
            confidenceBoost := 1/5 }
        = Except.ok merged
      ∧ merged.selectedOracle = some OracleProvider.uma
      ∧ merged.selectedOracle ≠ some OracleProvider.pyth
      ∧ OracleProvider.uma ∉ [OracleProvider.pyth, OracleProvider.chainlink] := by
  refine ⟨_, by with_unfolding_all rfl, rfl, by decide, by decide⟩

/-- Claim C7 (amended): for a schema-valid LLM enhancement
(`confidence_boost ∈ [0, 0.5]`) merged onto a valid basic response, the
merged response always selects the LLM's oracle (there is no candidate-set
restriction), has confidence `min(1, basic + boost)`, a reasoning string
containing both the LLM's and the original reasoning, and inherits the
basic response's alternatives, estimated cost and estimated latency. -/
theorem C7_apply_enhancements_merge (basic : RoutingResponse) (ai : AIEnhancement)
    (hc0 : 0 ≤ basic.confidenceScore) (hc1 : basic.confidenceScore ≤ 1)
    (hb0 : 0 ≤ ai.confidenceBoost) (hb1 : ai.confidenceBoost ≤ 1/2)
    (hres : ∀ m, basic.resolutionMethod = some m → m ∈ allowedResolutionMethods) :
    ∃ merged, applyEnhancements basic ai = Except.ok merged
      ∧ merged.selectedOracle = some ai.oracle
      ∧ merged.confidenceScore = min (basic.confidenceScore + ai.confidenceBoost) 1
      ∧ containsSub merged.reasoning.data ai.reasoning.data = true
      ∧ containsSub merged.reasoning.data basic.reasoning.data = true
      ∧ merged.alternatives = basic.alternatives
      ∧ merged.estimatedCostUsd = basic.estimatedCostUsd
      ∧ merged.estimatedLatencyMs = basic.estimatedLatencyMs := by
  have hreason :
      ∀ s : String,
        (s = ai.reasoning ++ " (Enhanced from: " ++ basic.reasoning ++ ")"
          ∨ (s = ai.reasoning
             ∧ (basic.reasoning = "" ∨ ai.reasoning = basic.reasoning))) →
        containsSub s.data ai.reasoning.data = true
        ∧ containsSub s.data basic.reasoning.data = true := by
    rintro s (rfl | ⟨rfl, hor⟩)
    · constructor
      · apply containsSub_of_prefix
        refine ⟨(" (Enhanced from: " ++ basic.reasoning ++ ")").data, ?_⟩
        simp [String.data_append]
      · apply containsSub_of_infix
        refine ⟨(ai.reasoning ++ " (Enhanced from: ").data, ")".data, ?_⟩
        simp [String.data_append]
    · constructor
      · exact containsSub_of_prefix (List.prefix_refl _)
      · rcases hor with h | h
        · rw [h]
          exact containsSub_of_prefix List.nil_prefix
        · rw [← h]
          exact containsSub_of_prefix (List.prefix_refl _)
  rw [applyEnhancements]
  set er :=
    (if ¬ (basic.reasoning == "") = true ∧ ¬ (ai.reasoning == basic.reasoning) = true
     then ai.reasoning ++ " (Enhanced from: " ++ basic.reasoning ++ ")"
     else ai.reasoning) with her
  have hershape :
      er = ai.reasoning ++ " (Enhanced from: " ++ basic.reasoning ++ ")"
        ∨ (er = ai.reasoning
           ∧ (basic.reasoning = "" ∨ ai.reasoning = basic.reasoning)) := by
    rw [her]
    split
    · exact Or.inl rfl
    · rename_i hcond
      refine Or.inr ⟨rfl, ?_⟩
      rw [Classical.not_and_iff_or_not_not] at hcond
      rcases hcond with h | h
      · exact Or.inl (by simpa using h)
      · exact Or.inr (by simpa using h)
  have hcontains := hreason er hershape
  refine ⟨_, validateRoutingResponse_ok _ (le_min (by linarith) (by norm_num))
      (min_le_right _ _) (fun _ => rfl) hres, rfl, rfl,
    hcontains.1, hcontains.2, rfl, rfl, rfl⟩

/-- Witness for C7: a basic response with confidence `0.55` merged with a
boost of `0.2` yields confidence `min(0.75, 1) = 0.75` and selects the
LLM's oracle. -/
theorem C7_apply_enhancements_merge_witness :
    ∃ merged,
      applyEnhancements
          { canResolve := true, selectedOracle := some .pyth
            reasoning := "basic reasoning"
            alternatives := some [.chainlink], confidenceScore := 11/20 }
          { oracle := .uma, dataType := .events, reasoning := "llm reasoning"
            confidenceBoost := 1/5 }
        = Except.ok merged
      ∧ merged.selectedOracle = some OracleProvider.uma
      ∧ merged.confidenceScore = 3/4
      ∧ containsSub merged.reasoning.data "llm reasoning".data = true
      ∧ containsSub merged.reasoning.data "basic reasoning".data = true
      ∧ merged.alternatives = some [OracleProvider.chainlink] := by
  obtain ⟨m, h1, h2, h3, h4, h5, h6, _, _⟩ :=
    C7_apply_enhancements_merge
      { canResolve := true, selectedOracle := some .pyth
        reasoning := "basic reasoning"
        alternatives := some [.chainlink], confidenceScore := 11/20 }
      { oracle := .uma, dataType := .events, reasoning := "llm reasoning"
        confidenceBoost := 1/5 }
      (by norm_num) (by norm_num) (by norm_num) (by norm_num)
      (fun m hm => by cases hm)
  refine ⟨m, h1, h2, ?_, h4, h5, h6⟩
  rw [h3]
  norm_num

/-- Claim C1: for the BTC price question with hint PRICE the engine does
select PYTH (latency 100 ms, cost $0.10) as the claim intends, but
constructing the response model raises: `_get_resolution_method` returns
`"direct_pull"`, which the `Literal["direct","aggregated","optimistic"]`
constraint on `resolution_method` rejects, so `route_question` answers
with the caught-exception response: `can_resolve = False`,
`confidence_score = 0`, reasoning `"Routing error: …"`. -/
theorem C1_btc_route_question_routing_error :
    (selectBestOracle (findSuitableOracles .price none none none none) .price
        (extractDataRequirements btcRequest.question)).1 = some OracleProvider.pyth
    ∧ (capsOf OracleProvider.pyth).latencyMs = 100
    ∧ (capsOf OracleProvider.pyth).costUsd = 1/10
    ∧ getResolutionMethod OracleProvider.pyth = "direct_pull"
    ∧ allowedResolutionMethods.contains "direct_pull" = false
    ∧ routeQuestionInner btcRequest
        = Except.error "unexpected value for resolution_method: direct_pull"
    ∧ routeQuestion btcRequest
        = Except.ok
            (routingErrorResponse "unexpected value for resolution_method: direct_pull")
    ∧ (routingErrorResponse
        "unexpected value for resolution_method: direct_pull").canResolve = false
    ∧ (routingErrorResponse
        "unexpected value for resolution_method: direct_pull").confidenceScore = 0 := by
  have hinner : routeQuestionInner btcRequest
      = Except.error "unexpected value for resolution_method: direct_pull" := by
    with_unfolding_all rfl
  refine ⟨by with_unfolding_all rfl, rfl, rfl, rfl, rfl, hinner, ?_, rfl, rfl⟩
  rw [routeQuestion.eq_def, hinner]
  exact validateRoutingResponse_error_response _

/-- Claim C10: `route_question` is total — for every request it returns a
response rather than raising; and whenever the `try` body raises, the
returned response has `can_resolve = False`, `confidence_score = 0.0` and
a reasoning string beginning with `"Routing error:"`. -/
theorem C10_route_question_never_raises (req : RoutingRequest) :
    (∃ r, routeQuestion req = Except.ok r)
    ∧ (∀ e, routeQuestionInner req = Except.error e →
        routeQuestion req = Except.ok (routingErrorResponse e)
        ∧ (routingErrorResponse e).canResolve = false
        ∧ (routingErrorResponse e).confidenceScore = 0
        ∧ strBeginsWith "Routing error:" (routingErrorResponse e).reasoning = true) := by
  constructor
  · cases h : routeQuestionInner req with
    | ok r =>
      refine ⟨r, ?_⟩
      rw [routeQuestion.eq_def, h]
    | error e =>
      refine ⟨routingErrorResponse e, ?_⟩
      rw [routeQuestion.eq_def, h]
      exact validateRoutingResponse_error_response e
  · intro e he
    refine ⟨?_, rfl, rfl, ?_⟩
    · rw [routeQuestion.eq_def, he]
      exact validateRoutingResponse_error_response e
    · rw [strBeginsWith, routingErrorResponse]
      apply List.isPrefixOf_iff_prefix.2
      refine ⟨' ' :: e.data, ?_⟩
      show "Routing error:".data ++ (' ' :: e.data) = ("Routing error: " ++ e).data
      rw [String.data_append]
      rfl

/-- Witness for C10: the BTC request makes the `try` body raise (the
`resolution_method` literal violation), and the returned response is the
`Routing error:` response. -/
theorem C10_route_question_never_raises_witness :
    routeQuestion btcRequest
      = Except.ok
          (routingErrorResponse "unexpected value for resolution_method: direct_pull")
    ∧ (routingErrorResponse
        "unexpected value for resolution_method: direct_pull").canResolve = false
    ∧ (routingErrorResponse
        "unexpected value for resolution_method: direct_pull").confidenceScore = 0
    ∧ strBeginsWith "Routing error:"
        (routingErrorResponse
          "unexpected value for resolution_method: direct_pull").reasoning = true :=
  (C10_route_question_never_raises btcRequest).2
    "unexpected value for resolution_method: direct_pull" (by with_unfolding_all rfl)

/-- Witness for C2: the amended statement instantiated at the ETH example
`[3000, 3400]` with maximum 3400 and minimum 3000. -/
theorem C2_discrepancy_iff_and_reduction_witness :
    (({ aggregatedValue := 3200, confidence := 4/5, discrepancyDetected := true }
        : AggResult).discrepancyDetected = true
      ↔ ((3400 : ℚ) - 3000) / 3400 > 1/20)
    ∧ (({ aggregatedValue := 3200, confidence := 4/5, discrepancyDetected := true }
        : AggResult).discrepancyDetected = true
      → ({ aggregatedValue := 3200, confidence := 4/5, discrepancyDetected := true }
          : AggResult).confidence = 19/20 - 3/20)
    ∧ (({ aggregatedValue := 3200, confidence := 4/5, discrepancyDetected := true }
        : AggResult).discrepancyDetected = false
      → ({ aggregatedValue := 3200, confidence := 4/5, discrepancyDetected := true }
          : AggResult).confidence = 19/20) :=
  C2_discrepancy_iff_and_reduction [3000, 3400] 3400 3000
    { aggregatedValue := 3200, confidence := 4/5, discrepancyDetected := true }
    (by norm_num)
    (by norm_num)
    (by intro x hx; fin_cases hx <;> norm_num)
    (by norm_num)
    (by intro x hx; fin_cases hx <;> norm_num)
    (by norm_num)
    (by norm_num [aggregateNumeric, sortAsc, insertAsc, medianOfSorted])

/-- Witness for C3: an empty query and a provider failure, both returned
as error responses with confidence 0. -/
theorem C3_all_failures_returned_witness :
    adapterQuery "pyth" [AdapterDataType.price] (Except.ok none)
        { query := "", dataType := .price }
      = Except.ok { data := none, provider := "pyth", confidence := 0
                  , error := some "Query cannot be empty" }
    ∧ adapterQuery "pyth" [AdapterDataType.price] (Except.error "boom")
        { query := "q", dataType := .price }
      = Except.ok { data := none, provider := "pyth", confidence := 0
                  , error := some "boom" } :=
  ⟨(C3_all_failures_returned "pyth" [.price] (.ok none)
      { query := "", dataType := .price }).1 rfl,
   (C3_all_failures_returned "pyth" [.price] (.error "boom")
      { query := "q", dataType := .price }).2.2 "boom" rfl rfl⟩

/-- Witness for C4: the zero address is accepted by `RouteResult` and a
well-formed hex address is accepted by `RouteConfig`. -/
theorem C4_accepted_iff_prefix_and_length_witness :
    routeResultValidateAddress zeroAddress = true
    ∧ routeConfigValidateAddress "0x5f4ec3df9cbd43714fe2740f5e3616155c5b8419" = true :=
  ⟨(C4_accepted_iff_prefix_and_length zeroAddress).2.1.mpr (Or.inl rfl),
   (C4_accepted_iff_prefix_and_length
      "0x5f4ec3df9cbd43714fe2740f5e3616155c5b8419").2.2 (by decide)⟩

end OpenOracle
